import Mathlib

/-!
Verification of the chancpp channel library (src/chan.h, src/select.h).

The C++ source is shallowly embedded: each channel is a pure state record,
each operation a pure function on it. Blocking waits on condition variables
are modelled by an explicit list of "wake states": the states of the channel
observed by the parked thread at each successive wake-up (other threads may
have mutated the channel in between). An empty wake list means the thread is
still parked, modelled by a `blocked` outcome. Condition-variable signals and
other side effects that matter to the claims are recorded as explicit event
lists.
-/

namespace Chancpp

/-- The two exception types of chan.h: `WriteToClosedChannelException` and
`ChannelReadNullIntoTException`. -/
inductive ChanError where
  | writeToClosed
  | readNullIntoT

/-- Events emitted inside a single channel operation: a value appended to the
ring buffer or deposited in the rendezvous slot, and `notify_one` signals. -/
inductive ChEv where
  | appended
  | notifyOneRead

/-- `Queue<T>`: boost::circular_buffer of fixed capacity, FIFO order. -/
structure Queue (T : Type) where
  capacity : Nat
  data : List T

variable {T V : Type}

/-- `Queue::empty`. -/
def Queue.empty (q : Queue T) : Bool := q.data.isEmpty

/-- `Queue::full`: size equals capacity. -/
def Queue.full (q : Queue T) : Bool := q.data.length == q.capacity

/-- `Queue::push`: append at the tail. The source asserts `!full()`;
callers only push under that guard. -/
def Queue.push (q : Queue T) (v : T) : Queue T := { q with data := q.data ++ [v] }

/-- `Queue::try_pop`: remove and return the head, or none if empty. -/
def Queue.try_pop (q : Queue T) : Option T × Queue T :=
  match q.data with
  | [] => (none, q)
  | x :: xs => (some x, { q with data := xs })

/-- `BufferChannel<T>` state: the ring buffer and the closed flag.
The mutex and condition variables have no pure state. -/
structure BufferChannel (T : Type) where
  queue : Queue T
  closed : Bool

/-- `BufferChannel::operator bool`: live iff not (closed and empty). -/
def BufferChannel.isLive (ch : BufferChannel T) : Bool :=
  !(ch.closed && ch.queue.empty)

/-- `BufferChannel::try_send`: under the lock, fail if closed or full,
otherwise push and notify one reader. Returns (result, state, events). -/
def BufferChannel.try_send (ch : BufferChannel T) (v : T) :
    Bool × BufferChannel T × List ChEv :=
  if ch.closed then (false, ch, [])
  else if ch.queue.full then (false, ch, [])
  else (true, { ch with queue := ch.queue.push v },
        [ChEv.appended, ChEv.notifyOneRead])

/-- Outcome of a blocking send: returned normally, threw
`WriteToClosedChannelException`, or still parked on a condition variable.
Each constructor carries the channel state at that point. -/
inductive SendExit (C : Type) where
  | done (ch : C)
  | closedErr (ch : C)
  | blocked (ch : C)

/-- State carried by a send outcome. -/
def SendExit.state {C : Type} : SendExit C → C
  | .done ch => ch
  | .closedErr ch => ch
  | .blocked ch => ch

/-- `BufferChannel::send`: loop while not closed; if the buffer has room,
push, notify one reader and return; otherwise wait on `write_cv_`. On wake
the thread sees the next state from `wakes`. Leaving the loop with the
channel closed throws. -/
def BufferChannel.sendRun (v : T) :
    BufferChannel T → List (BufferChannel T) → SendExit (BufferChannel T) × List ChEv
  | ch, wakes =>
    if ch.closed then (.closedErr ch, [])
    else if ch.queue.full then
      match wakes with
      | [] => (.blocked ch, [])
      | w :: ws => BufferChannel.sendRun v w ws
    else (.done { ch with queue := ch.queue.push v },
          [ChEv.appended, ChEv.notifyOneRead])

/-- `BufferChannel::try_receive` (= `try_receive_unsafe` under the lock):
pop the head if present. -/
def BufferChannel.try_receive (ch : BufferChannel T) : Option T × BufferChannel T :=
  match ch.queue.try_pop with
  | (some v, q) => (some v, { ch with queue := q })
  | (none, _) => (none, ch)

/-- Outcome of a blocking receive: a value, absent, or still parked. -/
inductive RecvExit (C T : Type) where
  | got (v : T) (ch : C)
  | absent (ch : C)
  | blocked (ch : C)

/-- State carried by a receive outcome. -/
def RecvExit.state {C T : Type} : RecvExit C T → C
  | .got _ ch => ch
  | .absent ch => ch
  | .blocked ch => ch

/-- `BufferChannel::receive`: loop while not closed; return a popped value if
any, else wait on `read_cv_`. Once the channel is observed closed, return
`try_receive_unsafe` (a residual value or absent). -/
def BufferChannel.receiveRun :
    BufferChannel T → List (BufferChannel T) → RecvExit (BufferChannel T) T
  | ch, wakes =>
    if ch.closed then
      match ch.try_receive with
      | (some v, ch2) => .got v ch2
      | (none, ch2) => .absent ch2
    else
      match ch.try_receive with
      | (some v, ch2) => .got v ch2
      | (none, _) =>
        match wakes with
        | [] => .blocked ch
        | w :: ws => BufferChannel.receiveRun w ws

/-- `BufferChannel::close`: set the closed flag (then broadcast both CVs). -/
def BufferChannel.close (ch : BufferChannel T) : BufferChannel T :=
  { ch with closed := true }

/-- `NoBufferChannel<T>` state: the single-value slot, the 64-bit ticket
counter and the closed flag. -/
structure NoBufferChannel (T : Type) where
  buffer : Option T
  ticket : Nat
  closed : Bool

/-- Modulus of the `uint64_t` ticket counter. -/
def ticketMod : Nat := 2 ^ 64

/-- `NoBufferChannel::operator bool`: live iff not (closed and slot empty). -/
def NoBufferChannel.isLive (ch : NoBufferChannel T) : Bool :=
  !(ch.closed && !ch.buffer.isSome)

/-- `NoBufferChannel::try_receive` (= `try_receive_unsafe`): take the slot
value if present (the ticket is NOT advanced here; only senders increment
it), then notify `ticket_cv_` and `write_cv_`. -/
def NoBufferChannel.try_receive (ch : NoBufferChannel T) :
    Option T × NoBufferChannel T :=
  match ch.buffer with
  | some v => (some v, { ch with buffer := none })
  | none => (none, ch)

/-- `NoBufferChannel::receive`: same loop structure as the buffered one. -/
def NoBufferChannel.receiveRun :
    NoBufferChannel T → List (NoBufferChannel T) → RecvExit (NoBufferChannel T) T
  | ch, wakes =>
    if ch.closed then
      match ch.try_receive with
      | (some v, ch2) => .got v ch2
      | (none, ch2) => .absent ch2
    else
      match ch.try_receive with
      | (some v, ch2) => .got v ch2
      | (none, _) =>
        match wakes with
        | [] => .blocked ch
        | w :: ws => NoBufferChannel.receiveRun w ws

/-- `NoBufferChannel::close`: set the closed flag (then broadcast all three
condition variables). -/
def NoBufferChannel.close (ch : NoBufferChannel T) : NoBufferChannel T :=
  { ch with closed := true }

/-- The inner wait of `send` / `wait_on_ticket`:
`while (!closed_ && buffer_.has_value() && own_ticket == ticket_) ticket_cv_.wait;`
Returns the state on leaving the loop, or none if the thread is still parked
after all wake-ups in `wakes`. -/
def ticketWaitRun (t : Nat) :
    NoBufferChannel T → List (NoBufferChannel T) → Option (NoBufferChannel T)
  | ch, wakes =>
    if !ch.closed && ch.buffer.isSome && ch.ticket == t then
      match wakes with
      | [] => none
      | w :: ws => ticketWaitRun t w ws
    else some ch

/-- `NoBufferChannel::wait_on_ticket`: run the ticket wait loop; on leaving
it, throw `WriteToClosedChannelException` iff the slot still holds a value
and the ticket still equals `t` (nobody read, channel closed). Returns none
when still parked. -/
def NoBufferChannel.wait_on_ticket (ch : NoBufferChannel T) (t : Nat)
    (wakes : List (NoBufferChannel T)) :
    Option (NoBufferChannel T × Except ChanError Unit) :=
  match ticketWaitRun t ch wakes with
  | none => none
  | some ch2 =>
    if ch2.buffer.isSome && ch2.ticket == t then
      some (ch2, Except.error ChanError.writeToClosed)
    else some (ch2, Except.ok ())

/-- Outcome of `send_without_wait`: the owned ticket and new state, a throw
on a closed channel, or still parked waiting for the slot to free. -/
inductive DepositExit (T : Type) where
  | ok (t : Nat) (ch : NoBufferChannel T)
  | closedErr (ch : NoBufferChannel T)
  | blocked (ch : NoBufferChannel T)

/-- State carried by a deposit outcome. -/
def DepositExit.state : DepositExit T → NoBufferChannel T
  | .ok _ ch => ch
  | .closedErr ch => ch
  | .blocked ch => ch

/-- `NoBufferChannel::send_without_wait`: loop while not closed; if the slot
is empty, deposit the value, take ticket `t = ++ticket_`, notify one reader
and return `t`; otherwise wait on `write_cv_`. Leaving the loop closed
throws. -/
def NoBufferChannel.send_without_wait (v : T) :
    NoBufferChannel T → List (NoBufferChannel T) → DepositExit T
  | ch, wakes =>
    if ch.closed then .closedErr ch
    else if ch.buffer.isSome then
      match wakes with
      | [] => .blocked ch
      | w :: ws => NoBufferChannel.send_without_wait v w ws
    else
      .ok ((ch.ticket + 1) % ticketMod)
        { buffer := some v, ticket := (ch.ticket + 1) % ticketMod,
          closed := ch.closed }

/-- `NoBufferChannel::send`: the inline body is exactly
`send_without_wait` followed by the ticket wait and the final
slot-and-ticket check (the same code as `wait_on_ticket`). -/
def NoBufferChannel.sendRun (v : T) (ch : NoBufferChannel T)
    (slotWakes ticketWakes : List (NoBufferChannel T)) :
    SendExit (NoBufferChannel T) :=
  match NoBufferChannel.send_without_wait v ch slotWakes with
  | .closedErr ch2 => .closedErr ch2
  | .blocked ch2 => .blocked ch2
  | .ok t ch2 =>
    match ch2.wait_on_ticket t ticketWakes with
    | none => .blocked ch2
    | some (ch3, Except.ok _) => .done ch3
    | some (ch3, Except.error _) => .closedErr ch3

/-- `Subscriber`: a notification channel (`BufferChannel<int>`) and the tag
chosen by the subscriber. -/
structure Subscriber where
  ch : BufferChannel Int
  name : Int

/-- The `std::variant<BufChan, NoBufChan>` held by the facade `Chan`. -/
inductive ChanVariant (T : Type) where
  | buf (ch : BufferChannel T)
  | nobuf (ch : NoBufferChannel T)

/-- `Chan<T>` facade state: the wrapped variant and the subscriber list. -/
structure Chan (T : Type) where
  channel : ChanVariant T
  subscribers : List Subscriber

/-- `Chan::operator bool` via `std::visit`. -/
def ChanVariant.isLive : ChanVariant T → Bool
  | .buf ch => ch.isLive
  | .nobuf ch => ch.isLive

/-- `Chan::try_receive` via `std::visit`. -/
def ChanVariant.try_receive : ChanVariant T → Option T × ChanVariant T
  | .buf ch =>
    match ch.try_receive with
    | (r, ch2) => (r, .buf ch2)
  | .nobuf ch =>
    match ch.try_receive with
    | (r, ch2) => (r, .nobuf ch2)

/-- `Chan::subscribe`: append a subscriber record under the subscriber
mutex. -/
def Chan.subscribe (c : Chan T) (ch : BufferChannel Int) (name : Int) : Chan T :=
  { c with subscribers := c.subscribers ++ [⟨ch, name⟩] }

/-- Facade-level events of one `Chan::send` call, in program order. -/
inductive FEv where
  | appendedBuf
  | deposited (t : Nat)
  | notifiedTag (name : Int)
  | waitedTicket (t : Nat)

/-- `Chan::notify_subscribers`: under the subscriber mutex, `try_send` each
subscriber's tag into its notification channel in reverse registration
order, then clear the list. Returns the facade (list cleared), the
notification-channel states after the try_sends (in processing order, i.e.
reverse registration order), and the event trace. -/
def Chan.notify_subscribers (c : Chan T) :
    Chan T × List (BufferChannel Int) × List FEv :=
  let processed := c.subscribers.reverse.map fun s =>
    ((s.ch.try_send s.name).2.1, FEv.notifiedTag s.name)
  ({ c with subscribers := [] }, processed.map Prod.fst, processed.map Prod.snd)

/-- `Chan::send` via `std::visit`. Bounded variant: the variant's `send`,
then `notify_subscribers`. Rendezvous variant: `send_without_wait` to get
ticket `t`, then `notify_subscribers`, then `wait_on_ticket t`. The throw
paths propagate the exception to the caller. -/
def Chan.send (c : Chan T) (v : T) (bufWakes : List (BufferChannel T))
    (slotWakes ticketWakes : List (NoBufferChannel T)) :
    SendExit (Chan T) × List FEv :=
  match c.channel with
  | ChanVariant.buf ch =>
    match BufferChannel.sendRun v ch bufWakes with
    | (.done ch2, _) =>
      let n := Chan.notify_subscribers
        { channel := ChanVariant.buf ch2, subscribers := c.subscribers }
      (.done n.1, FEv.appendedBuf :: n.2.2)
    | (.closedErr ch2, _) =>
      (.closedErr { channel := ChanVariant.buf ch2, subscribers := c.subscribers }, [])
    | (.blocked ch2, _) =>
      (.blocked { channel := ChanVariant.buf ch2, subscribers := c.subscribers }, [])
  | ChanVariant.nobuf ch =>
    match NoBufferChannel.send_without_wait v ch slotWakes with
    | .closedErr ch2 =>
      (.closedErr { channel := ChanVariant.nobuf ch2, subscribers := c.subscribers }, [])
    | .blocked ch2 =>
      (.blocked { channel := ChanVariant.nobuf ch2, subscribers := c.subscribers }, [])
    | .ok t ch2 =>
      let n := Chan.notify_subscribers
        { channel := ChanVariant.nobuf ch2, subscribers := c.subscribers }
      match ch2.wait_on_ticket t ticketWakes with
      | none =>
        (.blocked n.1, FEv.deposited t :: (n.2.2 ++ [FEv.waitedTicket t]))
      | some (ch3, Except.ok _) =>
        (.done { n.1 with channel := ChanVariant.nobuf ch3 },
         FEv.deposited t :: (n.2.2 ++ [FEv.waitedTicket t]))
      | some (ch3, Except.error _) =>
        (.closedErr { n.1 with channel := ChanVariant.nobuf ch3 },
         FEv.deposited t :: (n.2.2 ++ [FEv.waitedTicket t]))

/-! ## Select (src/select.h)

A case's handler is not modelled as a function: what the claims need is
WHICH handler is invoked and WITH WHAT value, recorded as an invocation
list of (case index, value) pairs. The channels of the cases are the
facade variants. -/

/-- `call_ith` readiness: the case's `try_receive` would yield a value. -/
def ChanVariant.ready (c : ChanVariant V) : Bool := (c.try_receive).1.isSome

/-- The initial poll of `Select`: `for (idx = 0; idx < k; ++idx)
dispatch_by_index(idx)` returning on the first success — i.e. try each
case's `try_receive` in declaration order, invoking the first available
handler. Returns the invocation list (at most one entry) and the updated
case channels. -/
def initialPollFrom : List (ChanVariant V) → Nat → List (Nat × V) × List (ChanVariant V)
  | [], _ => ([], [])
  | c :: rest, i =>
    match c.try_receive with
    | (some v, c2) => ([(i, v)], c2 :: rest)
    | (none, c2) =>
      let r := initialPollFrom rest (i + 1)
      (r.1, c2 :: r.2)

/-- The initial poll starting at case 0. -/
def initialPoll (cs : List (ChanVariant V)) :
    List (Nat × V) × List (ChanVariant V) := initialPollFrom cs 0

/-- `dispatch_by_index(idx, cases)`: the fold
`(false || ... || (idx == Is && call_ith<Is>(cases)))` calls `call_ith`
only for `Is == idx`, so exactly case `idx` is polled: its `try_receive`
is attempted and its handler invoked iff a value is present. -/
def dispatch_by_index (idx : Nat) (cs : List (ChanVariant V)) :
    Option (Nat × V) × List (ChanVariant V) :=
  match cs[idx]? with
  | none => (none, cs)
  | some c =>
    match c.try_receive with
    | (some v, c2) => (some (idx, v), cs.set idx c2)
    | (none, c2) => (none, cs.set idx c2)

/-- `any_open`: some case's channel is live. -/
def anyOpen (cs : List (ChanVariant V)) : Bool := cs.any ChanVariant.isLive

/-- How a `Select` wait loop ends: a handler dispatched, a return with no
handler (all cases non-live), or still parked on the notification
channel's `receive`. -/
inductive SelectExit (V : Type) where
  | dispatched (i : Nat) (v : V) (cs : List (ChanVariant V))
  | noHandler (cs : List (ChanVariant V))
  | stuck (cs : List (ChanVariant V))

/-- The wait loop of `Select`: `while (any_open()) { idx = receive();
if (dispatch_by_index(idx)) return; }`. `env` lists, for each successive
notification received, the index delivered and the case-channel states at
that moment (concurrent threads may have changed them). An exhausted `env`
with some case still live models the thread parked in `receive`. Returns
the exit and the handler-invocation list. -/
def selectLoop : List (Nat × List (ChanVariant V)) → List (ChanVariant V) →
    SelectExit V × List (Nat × V)
  | env, cs =>
    if anyOpen cs then
      match env with
      | [] => (.stuck cs, [])
      | (i, csWake) :: rest =>
        match dispatch_by_index i csWake with
        | (some (j, v), cs2) => (.dispatched j v cs2, [(j, v)])
        | (none, cs2) => selectLoop rest cs2
    else (.noHandler cs, [])

/-- A full `Select` call as far as handler dispatch is concerned: the
initial declaration-order poll; if it invoked a handler, return, otherwise
enter the wait loop. (The subscription phase touches only subscriber
lists, never the polled values.) -/
def selectRun (cs : List (ChanVariant V))
    (env : List (Nat × List (ChanVariant V))) : SelectExit V × List (Nat × V) :=
  match initialPoll cs with
  | ([(i, v)], cs2) => (SelectExit.dispatched i v cs2, [(i, v)])
  | (_, cs2) => selectLoop env cs2

/-! ## Operation sequences (for closure monotonicity) -/

/-- One public operation on a `BufferChannel`, with the wake states its
blocking waits would observe. -/
inductive BufOp (T : Type) where
  | send (v : T) (wakes : List (BufferChannel T))
  | trySend (v : T)
  | receive (wakes : List (BufferChannel T))
  | tryReceive
  | close

/-- Apply one operation to a `BufferChannel`, keeping the resulting channel
state (for a blocked operation, the state at the last observed wake-up). -/
def BufferChannel.applyOp (ch : BufferChannel T) : BufOp T → BufferChannel T
  | .send v wakes => ((BufferChannel.sendRun v ch wakes).1).state
  | .trySend v => (ch.try_send v).2.1
  | .receive wakes => (BufferChannel.receiveRun ch wakes).state
  | .tryReceive => (ch.try_receive).2
  | .close => ch.close

/-- Apply a sequence of operations to a `BufferChannel`. -/
def BufferChannel.applyOps (ch : BufferChannel T) : List (BufOp T) → BufferChannel T
  | [] => ch
  | op :: ops => (ch.applyOp op).applyOps ops

/-- One operation on a `NoBufferChannel`, including the internal ones the
facade uses. -/
inductive NBOp (T : Type) where
  | send (v : T) (slotWakes ticketWakes : List (NoBufferChannel T))
  | sendWithoutWait (v : T) (wakes : List (NoBufferChannel T))
  | waitOnTicket (t : Nat) (wakes : List (NoBufferChannel T))
  | receive (wakes : List (NoBufferChannel T))
  | tryReceive
  | close

/-- Apply one operation to a `NoBufferChannel` (a wait still parked after
all its wake-ups performs no further transition of its own). -/
def NoBufferChannel.applyOp (ch : NoBufferChannel T) : NBOp T → NoBufferChannel T
  | .send v sw tw => (NoBufferChannel.sendRun v ch sw tw).state
  | .sendWithoutWait v w => (NoBufferChannel.send_without_wait v ch w).state
  | .waitOnTicket t w =>
    match ch.wait_on_ticket t w with
    | some (ch2, _) => ch2
    | none => ch
  | .receive w => (NoBufferChannel.receiveRun ch w).state
  | .tryReceive => (ch.try_receive).2
  | .close => ch.close

/-- Apply a sequence of operations to a `NoBufferChannel`. -/
def NoBufferChannel.applyOps (ch : NoBufferChannel T) : List (NBOp T) → NoBufferChannel T
  | [] => ch
  | op :: ops => (ch.applyOp op).applyOps ops

/-- Iterated `receive` on a `BufferChannel`: the list of the first `n`
receive results (each receive is immediate on a closed channel, so no wake
states are consumed). -/
def drainSeq : BufferChannel T → Nat → List (Option T)
  | _, 0 => []
  | ch, n + 1 =>
    match BufferChannel.receiveRun ch [] with
    | .got v ch2 => some v :: drainSeq ch2 n
    | .absent ch2 => none :: drainSeq ch2 n
    | .blocked ch2 => none :: drainSeq ch2 n

/-! ## Claims -/

/-- C1: a rendezvous send that has deposited its value and owns ticket `t`,
upon leaving the ticket wait, throws `WriteToClosed` iff the slot still
holds a value and the ticket counter still equals `t`; if the slot is empty
or the ticket has advanced past `t`, the send returns successfully. -/
theorem c1_rendezvous_wait_exit (T : Type) (ch : NoBufferChannel T) (t : Nat)
    (wakes : List (NoBufferChannel T)) (ch2 : NoBufferChannel T)
    (h : ticketWaitRun t ch wakes = some ch2) :
    (ch.wait_on_ticket t wakes =
        some (ch2, Except.error ChanError.writeToClosed) ↔
      ch2.buffer.isSome = true ∧ ch2.ticket = t) ∧
    ((ch2.buffer = none ∨ t < ch2.ticket) →
      ch.wait_on_ticket t wakes = some (ch2, Except.ok ())) := by
  have hw : NoBufferChannel.wait_on_ticket ch t wakes =
      if ch2.buffer.isSome && ch2.ticket == t then
        some (ch2, Except.error ChanError.writeToClosed)
      else some (ch2, Except.ok ()) := by
    unfold NoBufferChannel.wait_on_ticket
    rw [h]
  rw [hw]
  constructor
  · cases hb : (ch2.buffer.isSome && ch2.ticket == t) with
    | false =>
      rw [if_neg (by simp)]
      constructor
      · intro he
        exact absurd (Prod.mk.inj (Option.some.inj he)).2
          (fun hcon => Except.noConfusion hcon)
      · intro hcon
        rw [hcon.1, hcon.2] at hb
        simp at hb
    | true =>
      rw [if_pos rfl]
      simp only [Bool.and_eq_true, beq_iff_eq] at hb
      simp [hb]
  · intro hcase
    have hb : (ch2.buffer.isSome && ch2.ticket == t) = false := by
      rcases hcase with hnone | hlt
      · simp [hnone]
      · have hne : ch2.ticket ≠ t := Nat.ne_of_gt hlt
        simp [hne]
    rw [if_neg (by simp [hb])]

/-- C1 witness: a wake with the slot already empty returns successfully. -/
theorem c1_witness :
    (⟨none, 5, false⟩ : NoBufferChannel Int).wait_on_ticket 5 [] =
      some (⟨none, 5, false⟩, Except.ok ()) :=
  (c1_rendezvous_wait_exit Int ⟨none, 5, false⟩ 5 [] ⟨none, 5, false⟩
      rfl).2 (Or.inl rfl)

theorem sendRun_appended_done (T : Type) (v : T) :
    ∀ (wakes : List (BufferChannel T)) (ch : BufferChannel T)
      (res : SendExit (BufferChannel T)) (evs : List ChEv),
      BufferChannel.sendRun v ch wakes = (res, evs) → ChEv.appended ∈ evs →
      ∃ ch2, res = SendExit.done ch2 := by
  intro wakes
  induction wakes with
  | nil =>
    intro ch res evs hrun hmem
    rw [BufferChannel.sendRun.eq_def] at hrun
    by_cases hc : ch.closed
    · simp only [hc, if_true] at hrun
      obtain ⟨rfl, rfl⟩ := Prod.mk.inj hrun
      simp at hmem
    · by_cases hf : ch.queue.full
      · simp only [hc, hf, if_false, if_true] at hrun
        obtain ⟨rfl, rfl⟩ := Prod.mk.inj hrun
        simp at hmem
      · simp only [hc, hf, if_false] at hrun
        obtain ⟨rfl, rfl⟩ := Prod.mk.inj hrun
        exact ⟨_, rfl⟩
  | cons w ws ih =>
    intro ch res evs hrun hmem
    rw [BufferChannel.sendRun.eq_def] at hrun
    by_cases hc : ch.closed
    · simp only [hc, if_true] at hrun
      obtain ⟨rfl, rfl⟩ := Prod.mk.inj hrun
      simp at hmem
    · by_cases hf : ch.queue.full
      · simp only [hc, hf, if_false, if_true] at hrun
        exact ih w res evs hrun hmem
      · simp only [hc, hf, if_false] at hrun
        obtain ⟨rfl, rfl⟩ := Prod.mk.inj hrun
        exact ⟨_, rfl⟩

/-- C2: on both variants a send that starts on a closed channel throws
`WriteToClosed` at once (state unchanged, nothing appended); and a bounded
send that has appended its value to the buffer returns normally — an
`appended` event is only ever produced by a run that ends in `done`. -/
theorem c2_closed_send_rejected (T : Type) :
    (∀ (ch : BufferChannel T) (v : T) (wakes : List (BufferChannel T)),
        ch.closed = true →
        BufferChannel.sendRun v ch wakes = (SendExit.closedErr ch, [])) ∧
    (∀ (ch : NoBufferChannel T) (v : T)
        (slotWakes ticketWakes : List (NoBufferChannel T)),
        ch.closed = true →
        NoBufferChannel.sendRun v ch slotWakes ticketWakes =
          SendExit.closedErr ch) ∧
    (∀ (ch : BufferChannel T) (v : T) (wakes : List (BufferChannel T))
        (res : SendExit (BufferChannel T)) (evs : List ChEv),
        BufferChannel.sendRun v ch wakes = (res, evs) → ChEv.appended ∈ evs →
        ∃ ch2, res = SendExit.done ch2) := by
  refine ⟨?_, ?_, ?_⟩
  · intro ch v wakes h
    rw [BufferChannel.sendRun.eq_def]
    simp [h]
  · intro ch v sw tw h
    rw [NoBufferChannel.sendRun, NoBufferChannel.send_without_wait.eq_def]
    simp [h]
  · intro ch v wakes res evs hrun hmem
    exact sendRun_appended_done T v wakes ch res evs hrun hmem

/-- C2 witness: a closed channel of each variant rejects a send, and an
open non-full bounded send that appends ends in `done`. -/
theorem c2_witness :
    BufferChannel.sendRun 7 (⟨⟨1, []⟩, true⟩ : BufferChannel Int) [] =
      (SendExit.closedErr ⟨⟨1, []⟩, true⟩, []) ∧
    NoBufferChannel.sendRun 7 (⟨none, 0, true⟩ : NoBufferChannel Int) [] [] =
      SendExit.closedErr ⟨none, 0, true⟩ ∧
    ∃ ch2, (SendExit.done (⟨⟨1, [7]⟩, false⟩ : BufferChannel Int)) =
      SendExit.done ch2 :=
  ⟨(c2_closed_send_rejected Int).1 ⟨⟨1, []⟩, true⟩ 7 [] rfl,
   (c2_closed_send_rejected Int).2.1 ⟨none, 0, true⟩ 7 [] [] rfl,
   (c2_closed_send_rejected Int).2.2 ⟨⟨1, []⟩, false⟩ 7 [] _ _ rfl
     (List.mem_cons_self _ _)⟩

/-- C8: bounded `try_send` returns true iff the channel is open and the
buffer not full, in which case it appends the value and signals one
receiver; otherwise it returns false and leaves the state untouched. (The
source function has no throw path, which the embedding mirrors by its
`Bool` result type.) -/
theorem c8_try_send_spec (T : Type) (ch : BufferChannel T) (v : T) :
    ((ch.try_send v).1 = true ↔ ch.closed = false ∧ ch.queue.full = false) ∧
    ((ch.try_send v).1 = true →
      (ch.try_send v).2.1 = { ch with queue := ch.queue.push v } ∧
      (ch.try_send v).2.2 = [ChEv.appended, ChEv.notifyOneRead]) ∧
    ((ch.try_send v).1 = false →
      (ch.try_send v).2.1 = ch ∧ (ch.try_send v).2.2 = []) := by
  unfold BufferChannel.try_send
  by_cases hc : ch.closed
  · simp [hc]
  · by_cases hf : ch.queue.full
    · simp [hc, hf]
    · simp [hc, hf]

/-- C8 witness: an open non-full channel accepts and appends; a closed one
refuses and is unchanged. -/
theorem c8_witness :
    ((⟨⟨1, []⟩, false⟩ : BufferChannel Int).try_send 5).1 = true ∧
    ((⟨⟨1, []⟩, true⟩ : BufferChannel Int).try_send 5).2.1 = ⟨⟨1, []⟩, true⟩ :=
  ⟨(c8_try_send_spec Int ⟨⟨1, []⟩, false⟩ 5).1.mpr ⟨rfl, rfl⟩,
   ((c8_try_send_spec Int ⟨⟨1, []⟩, true⟩ 5).2.2 rfl).1⟩

theorem drainSeq_closed_empty (T : Type) (cap : Nat) (k : Nat) :
    drainSeq (⟨⟨cap, []⟩, true⟩ : BufferChannel T) k = List.replicate k none := by
  induction k with
  | zero => rfl
  | succ n ih =>
    rw [drainSeq]
    have hr : BufferChannel.receiveRun (⟨⟨cap, []⟩, true⟩ : BufferChannel T) [] =
        RecvExit.absent ⟨⟨cap, []⟩, true⟩ := rfl
    rw [hr]
    simp [ih, List.replicate_succ]

/-- C3: on a closed bounded channel, successive `receive` calls return the
buffered values one per call in FIFO order, and once the buffer is empty
every further `receive` returns absent; closing discards nothing. -/
theorem c3_drain_then_absent (T : Type) (ch : BufferChannel T)
    (h : ch.closed = true) (k : Nat) :
    drainSeq ch (ch.queue.data.length + k) =
      ch.queue.data.map some ++ List.replicate k none := by
  obtain ⟨⟨cap, data⟩, closed⟩ := ch
  simp only at h
  subst h
  induction data with
  | nil =>
    simpa using drainSeq_closed_empty T cap k
  | cons x xs ih =>
    have hr : BufferChannel.receiveRun (⟨⟨cap, x :: xs⟩, true⟩ : BufferChannel T) [] =
        RecvExit.got x ⟨⟨cap, xs⟩, true⟩ := rfl
    have hlen : (Queue.data ⟨cap, x :: xs⟩).length + k = ((Queue.data ⟨cap, xs⟩).length + k) + 1 := by
      simp only [List.length_cons]
      omega
    rw [hlen, drainSeq, hr]
    simp only []
    rw [ih]
    simp

/-- C3 witness: a closed channel holding [1, 2] drains to 1, then 2, then
absent twice. -/
theorem c3_witness :
    drainSeq (⟨⟨3, [1, 2]⟩, true⟩ : BufferChannel Int) 4 =
      [some 1, some 2, none, none] := by
  have hmain := c3_drain_then_absent Int ⟨⟨3, [1, 2]⟩, true⟩ rfl 2
  simpa using hmain

theorem bufferChannel_dead_applyOp (T : Type) (ch : BufferChannel T)
    (op : BufOp T) (h : ch.isLive = false) : (ch.applyOp op).isLive = false := by
  obtain ⟨⟨cap, data⟩, closed⟩ := ch
  have hclosed : closed = true := by
    by_contra hc
    simp [BufferChannel.isLive, Bool.not_eq_true] at h
    exact hc h.1
  have hdata : data = [] := by
    simp [BufferChannel.isLive, hclosed, Queue.empty] at h
    exact h
  subst hclosed
  subst hdata
  cases op with
  | send v wakes =>
    have hrun : BufferChannel.sendRun v (⟨⟨cap, []⟩, true⟩ : BufferChannel T) wakes =
        (SendExit.closedErr ⟨⟨cap, []⟩, true⟩, []) := by
      rw [BufferChannel.sendRun.eq_def]
      simp
    simp [BufferChannel.applyOp, hrun, SendExit.state]
    exact h
  | trySend v =>
    simp [BufferChannel.applyOp, BufferChannel.try_send]
    exact h
  | receive wakes =>
    have hrun : BufferChannel.receiveRun (⟨⟨cap, []⟩, true⟩ : BufferChannel T) wakes =
        RecvExit.absent ⟨⟨cap, []⟩, true⟩ := by
      cases wakes with
      | nil => rfl
      | cons w ws => rfl
    simp [BufferChannel.applyOp, hrun, RecvExit.state]
    exact h
  | tryReceive =>
    simp [BufferChannel.applyOp, BufferChannel.try_receive, Queue.try_pop]
    exact h
  | close =>
    simp [BufferChannel.applyOp, BufferChannel.close]
    exact h

theorem noBufferChannel_dead_applyOp (T : Type) (ch : NoBufferChannel T)
    (op : NBOp T) (h : ch.isLive = false) : (ch.applyOp op).isLive = false := by
  obtain ⟨buffer, ticket, closed⟩ := ch
  have hclosed : closed = true := by
    by_contra hc
    simp [NoBufferChannel.isLive, Bool.not_eq_true] at h
    exact hc h.1
  have hbuf : buffer = none := by
    simp [NoBufferChannel.isLive, hclosed] at h
    exact Option.not_isSome_iff_eq_none.mp (by simp [h])
  subst hclosed
  subst hbuf
  cases op with
  | send v sw tw =>
    have hrun : NoBufferChannel.sendRun v
        (⟨none, ticket, true⟩ : NoBufferChannel T) sw tw =
        SendExit.closedErr ⟨none, ticket, true⟩ := by
      rw [NoBufferChannel.sendRun, NoBufferChannel.send_without_wait.eq_def]
      simp
    simp [NoBufferChannel.applyOp, hrun, SendExit.state]
    exact h
  | sendWithoutWait v w =>
    have hrun : NoBufferChannel.send_without_wait v
        (⟨none, ticket, true⟩ : NoBufferChannel T) w =
        DepositExit.closedErr ⟨none, ticket, true⟩ := by
      rw [NoBufferChannel.send_without_wait.eq_def]
      simp
    simp [NoBufferChannel.applyOp, hrun, DepositExit.state]
    exact h
  | waitOnTicket t w =>
    have hloop : ticketWaitRun t (⟨none, ticket, true⟩ : NoBufferChannel T) w =
        some ⟨none, ticket, true⟩ := by
      rw [ticketWaitRun.eq_def]
      simp
    have hrun : NoBufferChannel.wait_on_ticket
        (⟨none, ticket, true⟩ : NoBufferChannel T) t w =
        some (⟨none, ticket, true⟩, Except.ok ()) := by
      rw [NoBufferChannel.wait_on_ticket, hloop]
      simp
    simp [NoBufferChannel.applyOp, hrun]
    exact h
  | receive w =>
    have hrun : NoBufferChannel.receiveRun
        (⟨none, ticket, true⟩ : NoBufferChannel T) w =
        RecvExit.absent ⟨none, ticket, true⟩ := by
      cases w with
      | nil => rfl
      | cons w2 ws => rfl
    simp [NoBufferChannel.applyOp, hrun, RecvExit.state]
    exact h
  | tryReceive =>
    simp [NoBufferChannel.applyOp, NoBufferChannel.try_receive]
    exact h
  | close =>
    simp [NoBufferChannel.applyOp, NoBufferChannel.close]
    exact h

/-- C7: on both variants, once `is_live()` is false (closed and drained),
no sequence of operations can make it true again — nothing re-adds a value
or reopens the channel. -/
theorem c7_closure_monotonic (T : Type) :
    (∀ (ch : BufferChannel T) (ops : List (BufOp T)),
        ch.isLive = false → (ch.applyOps ops).isLive = false) ∧
    (∀ (ch : NoBufferChannel T) (ops : List (NBOp T)),
        ch.isLive = false → (ch.applyOps ops).isLive = false) := by
  constructor
  · intro ch ops
    induction ops generalizing ch with
    | nil => intro h; exact h
    | cons op ops ih =>
      intro h
      exact ih (ch.applyOp op) (bufferChannel_dead_applyOp T ch op h)
  · intro ch ops
    induction ops generalizing ch with
    | nil => intro h; exact h
    | cons op ops ih =>
      intro h
      exact ih (ch.applyOp op) (noBufferChannel_dead_applyOp T ch op h)

/-- C7 witness: a dead channel of each variant stays dead across a mixed
operation sequence. -/
theorem c7_witness :
    (BufferChannel.applyOps (⟨⟨2, []⟩, true⟩ : BufferChannel Int)
      [BufOp.trySend 3, BufOp.close, BufOp.send 4 [], BufOp.receive [],
       BufOp.tryReceive]).isLive = false ∧
    (NoBufferChannel.applyOps (⟨none, 7, true⟩ : NoBufferChannel Int)
      [NBOp.sendWithoutWait 3 [], NBOp.waitOnTicket 7 [], NBOp.close,
       NBOp.send 4 [] [], NBOp.receive [], NBOp.tryReceive]).isLive = false :=
  ⟨(c7_closure_monotonic Int).1 ⟨⟨2, []⟩, true⟩ _ rfl,
   (c7_closure_monotonic Int).2 ⟨none, 7, true⟩ _ rfl⟩

theorem initialPollFrom_len (V : Type) :
    ∀ (cs : List (ChanVariant V)) (n : Nat), (initialPollFrom cs n).1.length ≤ 1 := by
  intro cs
  induction cs with
  | nil => intro n; simp [initialPollFrom]
  | cons c rest ih =>
    intro n
    rcases htr : c.try_receive with ⟨r, c2⟩
    cases r with
    | some v => simp [initialPollFrom, htr]
    | none =>
      simp only [initialPollFrom, htr]
      exact ih (n + 1)

theorem initialPollFrom_least (V : Type) :
    ∀ (cs : List (ChanVariant V)) (n i : Nat) (c : ChanVariant V) (v : V),
      cs[i]? = some c → (c.try_receive).1 = some v →
      (∀ i2 c2, i2 < i → cs[i2]? = some c2 → c2.ready = false) →
      (initialPollFrom cs n).1 = [(n + i, v)] := by
  intro cs
  induction cs with
  | nil =>
    intro n i c v hi
    simp at hi
  | cons c0 rest ih =>
    intro n i c v hi hv hmin
    rcases htr : c0.try_receive with ⟨r, c2⟩
    cases r with
    | some v0 =>
      have hi0 : i = 0 := by
        by_contra hne
        have hpos : 0 < i := Nat.pos_of_ne_zero hne
        have hready0 := hmin 0 c0 hpos (by simp)
        rw [ChanVariant.ready, htr] at hready0
        simp at hready0
      subst hi0
      simp only [List.getElem?_cons_zero, Option.some.injEq] at hi
      subst hi
      rw [htr] at hv
      simp only [Option.some.injEq] at hv
      subst hv
      simp [initialPollFrom, htr]
    | none =>
      cases i with
      | zero =>
        simp only [List.getElem?_cons_zero, Option.some.injEq] at hi
        subst hi
        rw [htr] at hv
        simp at hv
      | succ i2 =>
        have hrest := ih (n + 1) i2 c v (by simpa using hi) hv
          (fun j cj hj hcj => hmin (j + 1) cj (by omega) (by simpa using hcj))
        simp only [initialPollFrom, htr]
        rw [hrest]
        have heq : n + 1 + i2 = n + (i2 + 1) := by omega
        rw [heq]

theorem selectLoop_len (V : Type) :
    ∀ (env : List (Nat × List (ChanVariant V))) (cs : List (ChanVariant V)),
      (selectLoop env cs).2.length ≤ 1 := by
  intro env
  induction env with
  | nil =>
    intro cs
    cases ha : anyOpen cs with
    | false =>
      rw [selectLoop.eq_def]
      simp [ha]
    | true =>
      rw [selectLoop.eq_def]
      simp [ha]
  | cons step rest ih =>
    intro cs
    obtain ⟨i0, csW⟩ := step
    cases ha : anyOpen cs with
    | false =>
      rw [selectLoop.eq_def]
      simp [ha]
    | true =>
      rw [selectLoop.eq_def]
      rcases hd : dispatch_by_index i0 csW with ⟨r, cs2⟩
      cases r with
      | some p =>
        obtain ⟨j, v⟩ := p
        simp [ha, hd]
      | none =>
        simp only [ha, if_true, hd]
        exact ih cs2

/-- C4: a single `Select` call invokes at most one handler (across the
initial poll and the wait loop), and the initial poll tries the cases'
`try_receive` in declaration order, so if `i` is the least index whose
case holds a ready value at entry, exactly the handler of case `i` is
invoked, with that value. -/
theorem c4_select_initial_poll (V : Type) (cs : List (ChanVariant V)) :
    (∀ env, (selectRun cs env).2.length ≤ 1) ∧
    (initialPoll cs).1.length ≤ 1 ∧
    (∀ i c v, cs[i]? = some c → (c.try_receive).1 = some v →
      (∀ i2 c2, i2 < i → cs[i2]? = some c2 → c2.ready = false) →
      (initialPoll cs).1 = [(i, v)]) := by
  refine ⟨?_, initialPollFrom_len V cs 0, ?_⟩
  · intro env
    rcases hp : initialPoll cs with ⟨inv, cs2⟩
    cases inv with
    | nil =>
      simp only [selectRun, hp]
      exact selectLoop_len V env cs2
    | cons p inv2 =>
      obtain ⟨i, v⟩ := p
      cases inv2 with
      | nil => simp [selectRun, hp]
      | cons q inv3 =>
        simp only [selectRun, hp]
        exact selectLoop_len V env cs2
  · intro i c v hi hv hmin
    have h := initialPollFrom_least V cs 0 i c v hi hv hmin
    simpa [initialPoll] using h

/-- C4 witness: with case 0 empty and case 1 ready, the initial poll
invokes exactly the handler of case 1. -/
theorem c4_witness :
    (initialPoll [ChanVariant.buf (⟨⟨1, []⟩, false⟩ : BufferChannel Int),
                  ChanVariant.buf ⟨⟨1, [9]⟩, false⟩]).1 = [(1, 9)] :=
  (c4_select_initial_poll Int
      [ChanVariant.buf ⟨⟨1, []⟩, false⟩, ChanVariant.buf ⟨⟨1, [9]⟩, false⟩]).2.2
    1 (ChanVariant.buf ⟨⟨1, [9]⟩, false⟩) 9 rfl rfl
    (fun i2 c2 hi2 hc2 => by
      have h0 : i2 = 0 := by omega
      subst h0
      simp only [List.getElem?_cons_zero, Option.some.injEq] at hc2
      subst hc2
      rfl)

/-- C5 counterexample: claim C5 says that after receiving index `i` from
the notification channel, `Select` re-polls from case 0 and dispatches the
first ready case. In the code, `dispatch_by_index(i)` polls only case `i`:
with case 0 ready (it holds 7) and case 1 empty, receiving index 1 invokes
no handler at all, while a poll from case 0 would invoke handler 0 with 7. -/
theorem c5_counterexample :
    (dispatch_by_index 1
      [ChanVariant.buf (⟨⟨1, [7]⟩, false⟩ : BufferChannel Int),
       ChanVariant.buf ⟨⟨1, []⟩, false⟩]).1 = none ∧
    (initialPoll
      [ChanVariant.buf (⟨⟨1, [7]⟩, false⟩ : BufferChannel Int),
       ChanVariant.buf ⟨⟨1, []⟩, false⟩]).1 = [(0, 7)] := by
  constructor
  · rfl
  · rfl

/-- C5 amended: after receiving index `i` from the notification channel,
`Select` attempts `try_receive` only on case `i` and dispatches that case's
handler iff it yields a value; all other cases are left untouched (so a
ready lower-index case is not dispatched by this step). -/
theorem c5_wait_dispatch_only_i (V : Type) (i : Nat) (cs : List (ChanVariant V)) :
    (∀ p, (dispatch_by_index i cs).1 = some p → p.1 = i) ∧
    (∀ j, j ≠ i → (dispatch_by_index i cs).2[j]? = cs[j]?) ∧
    (∀ c, cs[i]? = some c →
      (((dispatch_by_index i cs).1).isSome ↔ c.ready = true)) := by
  rcases hg : cs[i]? with _ | c0
  · have hd : dispatch_by_index i cs = (none, cs) := by
      simp [dispatch_by_index, hg]
    refine ⟨?_, ?_, ?_⟩
    · intro p hp
      rw [hd] at hp
      simp at hp
    · intro j hj
      rw [hd]
    · intro c hc
      exact absurd hc (by simp)
  · rcases htr : c0.try_receive with ⟨r, c2⟩
    cases r with
    | some v =>
      have hd : dispatch_by_index i cs = (some (i, v), cs.set i c2) := by
        simp [dispatch_by_index, hg, htr]
      refine ⟨?_, ?_, ?_⟩
      · intro p hp
        rw [hd] at hp
        simp only [Option.some.injEq] at hp
        rw [← hp]
      · intro j hj
        rw [hd]
        exact List.getElem?_set_ne (fun h => hj h.symm)
      · intro c hc
        simp only [Option.some.injEq] at hc
        subst hc
        rw [hd]
        simp [ChanVariant.ready, htr]
    | none =>
      have hd : dispatch_by_index i cs = (none, cs.set i c2) := by
        simp [dispatch_by_index, hg, htr]
      refine ⟨?_, ?_, ?_⟩
      · intro p hp
        rw [hd] at hp
        simp at hp
      · intro j hj
        rw [hd]
        exact List.getElem?_set_ne (fun h => hj h.symm)
      · intro c hc
        simp only [Option.some.injEq] at hc
        subst hc
        rw [hd]
        simp [ChanVariant.ready, htr]

/-- C5 amended witness: receiving index 1 with case 1 empty dispatches
nothing even though case 0 is ready. -/
theorem c5_witness :
    ((dispatch_by_index 1
      [ChanVariant.buf (⟨⟨1, [7]⟩, false⟩ : BufferChannel Int),
       ChanVariant.buf ⟨⟨1, []⟩, false⟩]).1).isSome ↔
    (ChanVariant.buf (⟨⟨1, []⟩, false⟩ : BufferChannel Int)).ready = true :=
  (c5_wait_dispatch_only_i Int 1
      [ChanVariant.buf ⟨⟨1, [7]⟩, false⟩, ChanVariant.buf ⟨⟨1, []⟩, false⟩]).2.2
    (ChanVariant.buf ⟨⟨1, []⟩, false⟩) rfl

theorem notify_subscribers_spec (T : Type) (c : Chan T) :
    (Chan.notify_subscribers c).2.2 =
      c.subscribers.reverse.map (fun s => FEv.notifiedTag s.name) ∧
    (Chan.notify_subscribers c).1.subscribers = [] ∧
    (Chan.notify_subscribers c).2.1 =
      c.subscribers.reverse.map (fun s => (s.ch.try_send s.name).2.1) := by
  refine ⟨?_, rfl, ?_⟩
  · simp [Chan.notify_subscribers, List.map_map]
  · simp [Chan.notify_subscribers, List.map_map]

/-- C6: the facade's send on the rendezvous variant deposits the value via
`send_without_wait` (obtaining ticket `t`), then notifies the subscribers,
then calls `wait_on_ticket t` — the event trace is exactly that sequence;
and `notify_subscribers` try_sends each subscriber's tag in reverse
registration order (the non-blocking `try_send` of the model) and clears
the whole list. -/
theorem c6_facade_send_order (T : Type) (c : Chan T) (v : T)
    (ch : NoBufferChannel T) (hch : c.channel = ChanVariant.nobuf ch)
    (hclosed : ch.closed = false) (hbuf : ch.buffer = none)
    (bufWakes : List (BufferChannel T))
    (slotWakes ticketWakes : List (NoBufferChannel T)) :
    (Chan.send c v bufWakes slotWakes ticketWakes).2 =
      FEv.deposited ((ch.ticket + 1) % ticketMod) ::
        (c.subscribers.reverse.map (fun s => FEv.notifiedTag s.name) ++
          [FEv.waitedTicket ((ch.ticket + 1) % ticketMod)]) ∧
    ((Chan.send c v bufWakes slotWakes ticketWakes).1).state.subscribers = [] ∧
    (∀ (c2 : Chan T),
      (Chan.notify_subscribers c2).2.2 =
        c2.subscribers.reverse.map (fun s => FEv.notifiedTag s.name) ∧
      (Chan.notify_subscribers c2).1.subscribers = [] ∧
      (Chan.notify_subscribers c2).2.1 =
        c2.subscribers.reverse.map (fun s => (s.ch.try_send s.name).2.1)) := by
  obtain ⟨cch, subs⟩ := c
  simp only at hch
  subst hch
  have hdep : NoBufferChannel.send_without_wait v ch slotWakes =
      DepositExit.ok ((ch.ticket + 1) % ticketMod)
        ⟨some v, (ch.ticket + 1) % ticketMod, ch.closed⟩ := by
    rw [NoBufferChannel.send_without_wait.eq_def]
    simp [hclosed, hbuf]
  have hmain :
      (Chan.send ⟨ChanVariant.nobuf ch, subs⟩ v bufWakes slotWakes ticketWakes).2 =
        FEv.deposited ((ch.ticket + 1) % ticketMod) ::
          ((Chan.notify_subscribers
              ⟨ChanVariant.nobuf ⟨some v, (ch.ticket + 1) % ticketMod, ch.closed⟩,
               subs⟩).2.2 ++
            [FEv.waitedTicket ((ch.ticket + 1) % ticketMod)]) ∧
      ((Chan.send ⟨ChanVariant.nobuf ch, subs⟩ v bufWakes slotWakes
          ticketWakes).1).state.subscribers =
        (Chan.notify_subscribers
            ⟨ChanVariant.nobuf ⟨some v, (ch.ticket + 1) % ticketMod, ch.closed⟩,
             subs⟩).1.subscribers := by
    simp only [Chan.send]
    rw [hdep]
    rcases hwait : NoBufferChannel.wait_on_ticket
        ⟨some v, (ch.ticket + 1) % ticketMod, ch.closed⟩
        ((ch.ticket + 1) % ticketMod) ticketWakes with _ | ⟨ch3, e⟩
    · simp [hwait, SendExit.state]
    · cases e with
      | ok u => simp [hwait, SendExit.state]
      | error err => simp [hwait, SendExit.state]
  refine ⟨?_, ?_, fun c2 => notify_subscribers_spec T c2⟩
  · rw [hmain.1, (notify_subscribers_spec T _).1]
  · rw [hmain.2, (notify_subscribers_spec T _).2.1]

/-- C6 witness: a rendezvous facade with two subscribers produces the
trace deposit, notify (reverse order), ticket wait, and clears the list. -/
theorem c6_witness :
    (Chan.send (⟨ChanVariant.nobuf ⟨none, 0, false⟩,
        [⟨⟨⟨1, []⟩, false⟩, 0⟩, ⟨⟨⟨1, []⟩, false⟩, 1⟩]⟩ : Chan Int)
        5 [] [] []).2 =
      [FEv.deposited 1, FEv.notifiedTag 1, FEv.notifiedTag 0,
       FEv.waitedTicket 1] ∧
    ((Chan.send (⟨ChanVariant.nobuf ⟨none, 0, false⟩,
        [⟨⟨⟨1, []⟩, false⟩, 0⟩, ⟨⟨⟨1, []⟩, false⟩, 1⟩]⟩ : Chan Int)
        5 [] [] []).1).state.subscribers = [] := by
  have h := c6_facade_send_order Int
    ⟨ChanVariant.nobuf ⟨none, 0, false⟩,
     [⟨⟨⟨1, []⟩, false⟩, 0⟩, ⟨⟨⟨1, []⟩, false⟩, 1⟩]⟩ 5
    ⟨none, 0, false⟩ rfl rfl rfl [] [] []
  refine ⟨?_, h.2.1⟩
  rw [h.1]
  rfl

/-- C9: the `Select` wait loop returns in exactly two ways — either a
dispatch succeeded (exactly one handler was invoked, with the dispatched
index and value) or every case's channel is non-live, in which case it
returns with no handler invoked; a run that merely exhausts its
notifications while some case is live is still parked, with no handler
invoked. -/
theorem c9_select_loop_exit (V : Type)
    (env : List (Nat × List (ChanVariant V))) (cs : List (ChanVariant V)) :
    (∀ cs2, (selectLoop env cs).1 = SelectExit.noHandler cs2 →
      anyOpen cs2 = false ∧ (selectLoop env cs).2 = []) ∧
    (∀ i v cs2, (selectLoop env cs).1 = SelectExit.dispatched i v cs2 →
      (selectLoop env cs).2 = [(i, v)]) ∧
    (∀ cs2, (selectLoop env cs).1 = SelectExit.stuck cs2 →
      anyOpen cs2 = true ∧ (selectLoop env cs).2 = []) := by
  induction env generalizing cs with
  | nil =>
    cases ha : anyOpen cs with
    | false =>
      have hl : selectLoop ([] : List (Nat × List (ChanVariant V))) cs =
          (SelectExit.noHandler cs, []) := by
        rw [selectLoop.eq_def]
        simp [ha]
      refine ⟨?_, ?_, ?_⟩
      · intro cs2 h
        rw [hl] at h ⊢
        simp only [SelectExit.noHandler.injEq] at h
        subst h
        exact ⟨ha, rfl⟩
      · intro i v cs2 h
        rw [hl] at h
        exact absurd h (by simp)
      · intro cs2 h
        rw [hl] at h
        exact absurd h (by simp)
    | true =>
      have hl : selectLoop ([] : List (Nat × List (ChanVariant V))) cs =
          (SelectExit.stuck cs, []) := by
        rw [selectLoop.eq_def]
        simp [ha]
      refine ⟨?_, ?_, ?_⟩
      · intro cs2 h
        rw [hl] at h
        exact absurd h (by simp)
      · intro i v cs2 h
        rw [hl] at h
        exact absurd h (by simp)
      · intro cs2 h
        rw [hl] at h ⊢
        simp only [SelectExit.stuck.injEq] at h
        subst h
        exact ⟨ha, rfl⟩
  | cons step rest ih =>
    obtain ⟨i0, csW⟩ := step
    cases ha : anyOpen cs with
    | false =>
      have hl : selectLoop ((i0, csW) :: rest) cs =
          (SelectExit.noHandler cs, []) := by
        rw [selectLoop.eq_def]
        simp [ha]
      refine ⟨?_, ?_, ?_⟩
      · intro cs2 h
        rw [hl] at h ⊢
        simp only [SelectExit.noHandler.injEq] at h
        subst h
        exact ⟨ha, rfl⟩
      · intro i v cs2 h
        rw [hl] at h
        exact absurd h (by simp)
      · intro cs2 h
        rw [hl] at h
        exact absurd h (by simp)
    | true =>
      rcases hd : dispatch_by_index i0 csW with ⟨r, cs2d⟩
      cases r with
      | some p =>
        obtain ⟨j, v0⟩ := p
        have hl : selectLoop ((i0, csW) :: rest) cs =
            (SelectExit.dispatched j v0 cs2d, [(j, v0)]) := by
          rw [selectLoop.eq_def]
          simp [ha, hd]
        refine ⟨?_, ?_, ?_⟩
        · intro cs2 h
          rw [hl] at h
          exact absurd h (by simp)
        · intro i v cs2 h
          rw [hl] at h ⊢
          simp only [SelectExit.dispatched.injEq] at h
          obtain ⟨h1, h2, h3⟩ := h
          rw [h1, h2]
        · intro cs2 h
          rw [hl] at h
          exact absurd h (by simp)
      | none =>
        have hl : selectLoop ((i0, csW) :: rest) cs = selectLoop rest cs2d := by
          rw [selectLoop.eq_def]
          simp [ha, hd]
        rw [hl]
        exact ih cs2d

/-- C9 witness: with both cases closed and drained the loop returns at
once with no handler. -/
theorem c9_witness :
    anyOpen [ChanVariant.buf (⟨⟨1, []⟩, true⟩ : BufferChannel Int),
             ChanVariant.nobuf ⟨none, 0, true⟩] = false ∧
    (selectLoop ([] : List (Nat × List (ChanVariant Int)))
      [ChanVariant.buf ⟨⟨1, []⟩, true⟩, ChanVariant.nobuf ⟨none, 0, true⟩]).2 =
      [] :=
  (c9_select_loop_exit Int []
      [ChanVariant.buf ⟨⟨1, []⟩, true⟩, ChanVariant.nobuf ⟨none, 0, true⟩]).1
    [ChanVariant.buf ⟨⟨1, []⟩, true⟩, ChanVariant.nobuf ⟨none, 0, true⟩] rfl

/-- C10: when the facade's send fails because the underlying channel was
closed at entry (either variant), it returns immediately: no notification
event is emitted and the subscriber list is unchanged; but on the
rendezvous variant, when the deposit succeeds and `wait_on_ticket` then
throws, the subscribers have already been notified and the list cleared
even though send raises. -/
theorem c10_send_failure_subscribers (T : Type) :
    (∀ (c : Chan T) (v : T) (bw : List (BufferChannel T))
        (sw tw : List (NoBufferChannel T)) (ch : BufferChannel T),
        c.channel = ChanVariant.buf ch → ch.closed = true →
        Chan.send c v bw sw tw =
          (SendExit.closedErr ⟨ChanVariant.buf ch, c.subscribers⟩, [])) ∧
    (∀ (c : Chan T) (v : T) (bw : List (BufferChannel T))
        (sw tw : List (NoBufferChannel T)) (ch : NoBufferChannel T),
        c.channel = ChanVariant.nobuf ch → ch.closed = true →
        Chan.send c v bw sw tw =
          (SendExit.closedErr ⟨ChanVariant.nobuf ch, c.subscribers⟩, [])) ∧
    (∀ (c : Chan T) (v : T) (bw : List (BufferChannel T))
        (sw tw : List (NoBufferChannel T)) (ch ch3 : NoBufferChannel T),
        c.channel = ChanVariant.nobuf ch → ch.closed = false →
        ch.buffer = none →
        NoBufferChannel.wait_on_ticket
            ⟨some v, (ch.ticket + 1) % ticketMod, ch.closed⟩
            ((ch.ticket + 1) % ticketMod) tw =
          some (ch3, Except.error ChanError.writeToClosed) →
        (Chan.send c v bw sw tw).1 =
          SendExit.closedErr ⟨ChanVariant.nobuf ch3, []⟩ ∧
        (Chan.send c v bw sw tw).2 =
          FEv.deposited ((ch.ticket + 1) % ticketMod) ::
            (c.subscribers.reverse.map (fun s => FEv.notifiedTag s.name) ++
              [FEv.waitedTicket ((ch.ticket + 1) % ticketMod)])) := by
  refine ⟨?_, ?_, ?_⟩
  · intro c v bw sw tw ch hch hclosed
    obtain ⟨cch, subs⟩ := c
    simp only at hch
    subst hch
    have hrun : BufferChannel.sendRun v ch bw =
        (SendExit.closedErr ch, []) := by
      rw [BufferChannel.sendRun.eq_def]
      simp [hclosed]
    simp only [Chan.send]
    rw [hrun]
  · intro c v bw sw tw ch hch hclosed
    obtain ⟨cch, subs⟩ := c
    simp only at hch
    subst hch
    have hdep : NoBufferChannel.send_without_wait v ch sw =
        DepositExit.closedErr ch := by
      rw [NoBufferChannel.send_without_wait.eq_def]
      simp [hclosed]
    simp only [Chan.send]
    rw [hdep]
  · intro c v bw sw tw ch ch3 hch hclosed hbuf hwait
    obtain ⟨cch, subs⟩ := c
    simp only at hch
    subst hch
    have hdep : NoBufferChannel.send_without_wait v ch sw =
        DepositExit.ok ((ch.ticket + 1) % ticketMod)
          ⟨some v, (ch.ticket + 1) % ticketMod, ch.closed⟩ := by
      rw [NoBufferChannel.send_without_wait.eq_def]
      simp [hclosed, hbuf]
    constructor
    · simp only [Chan.send, hdep, hwait]
      rw [(notify_subscribers_spec T _).2.1]
    · simp only [Chan.send, hdep, hwait]
      rw [(notify_subscribers_spec T _).1]

/-- C10 witness: closed-at-entry sends of both variants leave the one
subscriber in place with no events; a rendezvous send whose ticket wait
fails has notified and cleared it. -/
theorem c10_witness :
    Chan.send (⟨ChanVariant.buf ⟨⟨1, []⟩, true⟩,
        [⟨⟨⟨1, []⟩, false⟩, 0⟩]⟩ : Chan Int) 5 [] [] [] =
      (SendExit.closedErr ⟨ChanVariant.buf ⟨⟨1, []⟩, true⟩,
        [⟨⟨⟨1, []⟩, false⟩, 0⟩]⟩, []) ∧
    Chan.send (⟨ChanVariant.nobuf ⟨none, 0, true⟩,
        [⟨⟨⟨1, []⟩, false⟩, 0⟩]⟩ : Chan Int) 5 [] [] [] =
      (SendExit.closedErr ⟨ChanVariant.nobuf ⟨none, 0, true⟩,
        [⟨⟨⟨1, []⟩, false⟩, 0⟩]⟩, []) ∧
    (Chan.send (⟨ChanVariant.nobuf ⟨none, 0, false⟩,
        [⟨⟨⟨1, []⟩, false⟩, 0⟩]⟩ : Chan Int) 5 [] []
        [⟨some 5, 1, true⟩]).1 =
      SendExit.closedErr ⟨ChanVariant.nobuf ⟨some 5, 1, true⟩, []⟩ ∧
    (Chan.send (⟨ChanVariant.nobuf ⟨none, 0, false⟩,
        [⟨⟨⟨1, []⟩, false⟩, 0⟩]⟩ : Chan Int) 5 [] []
        [⟨some 5, 1, true⟩]).2 =
      [FEv.deposited 1, FEv.notifiedTag 0, FEv.waitedTicket 1] := by
  have h1 := (c10_send_failure_subscribers Int).1
    ⟨ChanVariant.buf ⟨⟨1, []⟩, true⟩, [⟨⟨⟨1, []⟩, false⟩, 0⟩]⟩ 5 [] [] []
    ⟨⟨1, []⟩, true⟩ rfl rfl
  have h2 := (c10_send_failure_subscribers Int).2.1
    ⟨ChanVariant.nobuf ⟨none, 0, true⟩, [⟨⟨⟨1, []⟩, false⟩, 0⟩]⟩ 5 [] [] []
    ⟨none, 0, true⟩ rfl rfl
  have h3 := (c10_send_failure_subscribers Int).2.2
    ⟨ChanVariant.nobuf ⟨none, 0, false⟩, [⟨⟨⟨1, []⟩, false⟩, 0⟩]⟩ 5 [] []
    [⟨some 5, 1, true⟩] ⟨none, 0, false⟩ ⟨some 5, 1, true⟩ rfl rfl rfl rfl
  refine ⟨h1, h2, h3.1, ?_⟩
  rw [h3.2]
  rfl

end Chancpp
